import Mathlib

/-!
Verification of the Python project-stack detector and runtime-version
resolver (`scanner/python.go`).  Strings are modelled as lists of
characters (`Str`); the ASCII fragment of Go's `strings.ToLower` is
modelled explicitly.  File-system and subprocess interaction is modelled
by an explicit environment record (`PyEnv`): which files exist, what
their parsed contents are, and what the interpreter probes print.
-/

set_option maxRecDepth 4096

abbrev Str := List Char

/-- Go `strings.Split(s, sep)[0]`: the part of `s` before the first
occurrence of the (non-empty) separator `sep`, or all of `s` when the
separator does not occur. -/
def cutAt (sep : Str) : Str → Str
  | [] => []
  | c :: rest => if sep.isPrefixOf (c :: rest) then [] else c :: cutAt sep rest

/-- Go `strings.Contains(s, sub)`. -/
def containsSub (sub : Str) : Str → Bool
  | [] => sub.isPrefixOf []
  | c :: rest => sub.isPrefixOf (c :: rest) || containsSub sub rest

/-- ASCII fragment of Go `unicode.ToLower`, written as an explicit table. -/
def toLowerChar (c : Char) : Char :=
  if c = 'A' then 'a' else if c = 'B' then 'b' else if c = 'C' then 'c'
  else if c = 'D' then 'd' else if c = 'E' then 'e' else if c = 'F' then 'f'
  else if c = 'G' then 'g' else if c = 'H' then 'h' else if c = 'I' then 'i'
  else if c = 'J' then 'j' else if c = 'K' then 'k' else if c = 'L' then 'l'
  else if c = 'M' then 'm' else if c = 'N' then 'n' else if c = 'O' then 'o'
  else if c = 'P' then 'p' else if c = 'Q' then 'q' else if c = 'R' then 'r'
  else if c = 'S' then 's' else if c = 'T' then 't' else if c = 'U' then 'u'
  else if c = 'V' then 'v' else if c = 'W' then 'w' else if c = 'X' then 'x'
  else if c = 'Y' then 'y' else if c = 'Z' then 'z' else c

/-- Go `strings.ToLower` (ASCII fragment). -/
def toLowerStr (s : Str) : Str := s.map toLowerChar

/-- Function `parsePyDep` from `scanner/python.go`: canonicalizes a raw Python
dependency token by lowercasing and then truncating, in order, at the
first `;`, space, `[`, `==`, `>`, `<` and `~=`. -/
def parsePyDep (dep : Str) : Str :=
  cutAt ['~', '='] (cutAt ['<'] (cutAt ['>'] (cutAt ['=', '=']
    (cutAt ['['] (cutAt [' '] (cutAt [';'] (toLowerStr dep)))))))

example : parsePyDep "fastapi>=0.1.0".data = "fastapi".data := by decide
example : parsePyDep "numpy~=1.19.2".data = "numpy".data := by decide
example : parsePyDep "pytest < 5.0.0".data = "pytest".data := by decide

/-- Character class `[0-9]` of the version regexp. -/
def isDigitCh (c : Char) : Bool := '0' ≤ c && c ≤ '9'

/-- Character class `[a-zA-Z]` of the version regexp. -/
def isAlphaCh (c : Char) : Bool := ('a' ≤ c && c ≤ 'z') || ('A' ≤ c && c ≤ 'Z')

/-- Strip a literal from the front of `s`, returning the remainder. -/
def dropLit : Str → Str → Option Str
  | [], s => some s
  | _ :: _, [] => none
  | p :: ps, c :: cs => if p = c then dropLit ps cs else none

/-- Match the mandatory part of the regexp
`Python ([0-9]+\.[0-9]+\.[0-9]+(?:[a-zA-Z]+[0-9]+)?)` at the start of
`s`: the literal `Python ` followed by `MAJOR.MINOR.PATCH`.  Returns the
captured `MAJOR.MINOR.PATCH` text together with the remaining input.
Since `.` is not a digit, the greedy digit runs of Go's regexp engine
never backtrack, so maximal-run matching is faithful. -/
def matchMandatory (s : Str) : Option (Str × Str) :=
  match dropLit "Python ".data s with
  | none => none
  | some r0 =>
    let d1 := r0.takeWhile isDigitCh
    match r0.dropWhile isDigitCh with
    | '.' :: r2 =>
      let d2 := r2.takeWhile isDigitCh
      match r2.dropWhile isDigitCh with
      | '.' :: r4 =>
        let d3 := r4.takeWhile isDigitCh
        if d1 = [] || d2 = [] || d3 = [] then none
        else some (d1 ++ '.' :: d2 ++ '.' :: d3, r4.dropWhile isDigitCh)
      | _ => none
    | _ => none

/-- The optional prerelease group `(?:[a-zA-Z]+[0-9]+)?`: a maximal
letter run followed by a maximal digit run, or nothing.  The character
classes are disjoint, so greedy matching without backtracking is
faithful to Go's engine. -/
def preleaseSuffix (s : Str) : Str :=
  let l := s.takeWhile isAlphaCh
  let d := (s.dropWhile isAlphaCh).takeWhile isDigitCh
  if l ≠ [] && d ≠ [] then l ++ d else []

/-- Full capture group of the version regexp at one position. -/
def matchVersionAt (s : Str) : Option Str :=
  (matchMandatory s).map (fun cr => cr.1 ++ preleaseSuffix cr.2)

/-- Model of `regexp.FindStringSubmatch`: leftmost match of the version regexp. -/
def findVersionMatch : Str → Option Str
  | [] => none
  | c :: rest =>
    match matchVersionAt (c :: rest) with
    | some v => some v
    | none => findVersionMatch rest

/-- Does the mandatory pattern `Python MAJOR.MINOR.PATCH` match at this
position? -/
def hasVersionAt (s : Str) : Bool := (matchMandatory s).isSome

/-- Does the text contain any substring matching
`Python MAJOR.MINOR.PATCH`? -/
def hasBannerVersion : Str → Bool
  | [] => false
  | c :: rest => hasVersionAt (c :: rest) || hasBannerVersion rest

/-- The `[^0-9.]` pinned test of `extractPythonVersion`. -/
def pinnedOf (v : Str) : Bool := v.any (fun c => !(isDigitCh c || c = '.'))

/-- The banner-parsing tail of `extractPythonVersion`
(`scanner/python.go` lines 416-425): extract the leftmost
`Python X.Y.Z[suffix]` capture and the pinned flag, or the hard error. -/
def parseVersionBanner (out : Str) : Except Str (Str × Bool) :=
  match findVersionMatch out with
  | some v => .ok (v, pinnedOf v)
  | none => .error "Could not find Python version".data

instance {ε α : Type} [DecidableEq ε] [DecidableEq α] :
    DecidableEq (Except ε α) := fun x y =>
  match x, y with
  | .ok a, .ok b =>
    if h : a = b then .isTrue (by rw [h]) else .isFalse (by simp [h])
  | .error a, .error b =>
    if h : a = b then .isTrue (by rw [h]) else .isFalse (by simp [h])
  | .ok _, .error _ => .isFalse (by simp)
  | .error _, .ok _ => .isFalse (by simp)

example : parseVersionBanner "Python 3.11.2\n".data =
    .ok ("3.11.2".data, false) := by decide
example : parseVersionBanner "Python 3.12.0b4".data =
    .ok ("3.12.0b4".data, true) := by decide

/-- A TOML/JSON value sitting in a `map[string]interface{}` table: either
a string or something else (the detector only ever asserts strings). -/
inductive PyVal where
  | str (s : Str)
  | other
deriving DecidableEq

/-- Parsed `pyproject.toml` (struct `PyProjectToml`).  `Option` on the
dependency fields models Go's nil slice / nil map; the unused version
fields are omitted. -/
structure PyProjectToml where
  projectName : Str
  projectDependencies : Option (List Str)
  projectRequiresPython : Str
  poetryName : Str
  poetryDependencies : Option (List (Str × PyVal))
deriving DecidableEq

/-- Parsed `Pipfile` (struct `Pipfile`): the `packages` table. -/
structure PipfileT where
  packages : Option (List (Str × PyVal))
deriving DecidableEq

/-- Environment of one detection run: which files exist in the source
directory, their parsed contents (`none` = the file fails to parse), the
`_meta.requires.python_version` field of a readable, JSON-parsable
`Pipfile.lock`, the flat requirements files' scanner lines, the combined
output of each interpreter probe when it exits successfully, and the
source tree in directory-walk order as `(path, lines)` pairs. -/
structure PyEnv where
  files : List Str
  pyproject : Option PyProjectToml
  pipfile : Option PipfileT
  pipfileLockVersion : Option Str
  requirementsTxt : List Str
  requirementsIn : List Str
  python3Out : Option Str
  pythonOut : Option Str
  tree : List (Str × List Str)
  sourceDir : Str
deriving DecidableEq

/-- A template variable value (`map[string]interface{}` entry). -/
inductive TemplVar where
  | str (s : Str)
  | bool (b : Bool)
deriving DecidableEq

/-- The `SourceInfo` fields the Python scanner sets.  `templateDir` and
`vars` stand for the `Files` value handed to the external template
renderer. -/
structure SourceInfo where
  templateDir : Str
  vars : List (Str × TemplVar)
  builder : Str := []
  family : Str
  port : Nat
  objectStorageDesired : Bool := false
  env : List (Str × Str) := []
  skipDeploy : Bool := false
  deployDocs : Str := []
  runtimeLanguage : Str
  runtimeVersion : Str := []
deriving DecidableEq

/-- Result of a Go `(*SourceInfo, error)` detector: `(nil, nil)` is
`absent`, a descriptor is `found`, a non-nil error is `fail`, and a
runtime panic (the unchecked type assertion in `configPoetry`) is
`panicked`. -/
inductive DetectorResult where
  | absent
  | found (s : SourceInfo)
  | fail (msg : Str)
  | panicked
deriving DecidableEq

/-- Go `strings.TrimPrefix(s, "^")`. -/
def trimCaret : Str → Str
  | '^' :: rest => rest
  | s => s

/-- Character predicate of the `strings.TrimFunc` call in
`configPyProject`: neither a digit nor `.` (ASCII fragment of
`unicode.IsDigit`). -/
def notDigitDot (c : Char) : Bool := !(isDigitCh c) && c ≠ '.'

/-- Go `strings.TrimFunc(s, notDigitDot)`: trim from both ends. -/
def trimNonDigitDot (s : Str) : Str :=
  ((s.dropWhile notDigitDot).reverse.dropWhile notDigitDot).reverse

/-- Go `filepath.Base` (enough of it for relative source-dir paths): the
last slash-separated element after dropping trailing slashes, `"."` for
the empty path, `"/"` for all-slash paths. -/
def lastSlashElem : Str → Str → Str
  | [], acc => acc
  | c :: rest, acc => if c = '/' then acc else lastSlashElem rest (c :: acc)

def filepathBase (p : Str) : Str :=
  if p = [] then ".".data
  else
    let t := (p.reverse.dropWhile (fun c => c = '/')).reverse
    if t = [] then "/".data else lastSlashElem t.reverse []

example : filepathBase "a/b/myapp".data = "myapp".data := by decide
example : filepathBase "myapp/".data = "myapp".data := by decide

/-- Go map lookup on an association list (TOML tables have unique keys). -/
def lookupAssoc (k : Str) : List (Str × PyVal) → Option PyVal
  | [] => none
  | (k', v) :: rest => if k' = k then some v else lookupAssoc k rest

/-- Go `filepath.Ext`: the suffix of the final path element starting at its
last dot, scanning backwards and stopping at a path separator. -/
def extFromRev : Str → Str → Str
  | [], _ => []
  | c :: rest, acc =>
    if c = '/' then []
    else if c = '.' then c :: acc
    else extFromRev rest (c :: acc)

def extOf (path : Str) : Str := extFromRev path.reverse []

example : extOf "app/main.py".data = ".py".data := by decide
example : extOf "a.b/c".data = [] := by decide

/-- One line qualifies for the entrypoint walk: it contains both
`import` and the target dependency's name. -/
def lineQualifies (dep line : Str) : Bool :=
  containsSub "import".data line && containsSub dep line

/-- One walked file qualifies: extension `.py`, path free of `.venv`,
and some line qualifies. -/
def fileQualifies (dep : Str) (pf : Str × List Str) : Bool :=
  extOf pf.1 = ".py".data && !containsSub ".venv".data pf.1 &&
    pf.2.any (lineQualifies dep)

/-- One `filepath.Walk` visit of `findEntrypoint`: a qualifying file
overwrites the result, a non-qualifying one leaves it alone. -/
def entrypointStep (dep : Str) (acc : Option Str) (pf : Str × List Str) :
    Option Str :=
  if fileQualifies dep pf then some pf.1 else acc

/-- Function `findEntrypoint` from `scanner/python.go`: walk the tree, keeping
the path of the most recently visited qualifying file. -/
def findEntrypoint (tree : List (Str × List Str)) (dep : Str) :
    Option Str :=
  tree.foldl (entrypointStep dep) none

/-- Go `slices.Contains(supportedApps, PyApp(dep))`. -/
def isSupportedApp (d : Str) : Bool :=
  d = "fastapi".data || d = "flask".data || d = "streamlit".data

/-- The framework-selection loop of `intoSource`: `app` starts as the
empty string; a supported dependency fills it; a second supported
dependency while it is filled returns the ambiguity result (`none`
here, the warned `(nil, nil)` early return in Go). -/
def pickApp : List Str → Str → Option Str
  | [], app => some app
  | d :: rest, app =>
    if isSupportedApp d && app = [] then pickApp rest d
    else if isSupportedApp d && app ≠ [] then none
    else pickApp rest app

/-- The probe half of `extractPythonVersion`: use the first
successfully exiting interpreter's combined output, falling back to the
literal `Python 3.12.0`. -/
def bannerOutput (env : PyEnv) : Str :=
  match env.python3Out with
  | some o => o
  | none =>
    match env.pythonOut with
    | some o => o
    | none => "Python 3.12.0".data

/-- Function `extractPythonVersion` from `scanner/python.go`: a readable,
parsable `Pipfile.lock` with a non-empty
`_meta.requires.python_version` wins (returned with pinned = `true`);
otherwise the probe output is matched against the version regexp. -/
def extractPythonVersion (env : PyEnv) : Except Str (Str × Bool) :=
  match env.pipfileLockVersion with
  | some v => if v ≠ [] then .ok (v, true) else parseVersionBanner (bannerOutput env)
  | none => parseVersionBanner (bannerOutput env)

/-- Struct `PyCfg` from `scanner/python.go`. -/
structure PyCfg where
  pyVersion : Str
  appName : Str
  deps : List Str
  depStyle : Str
deriving DecidableEq

/-- Function `intoSource` from `scanner/python.go`: classify the dependency list
and build the deployment descriptor.  The `env` parameter carries the
source tree for the Streamlit entrypoint walk. -/
def intoSource (env : PyEnv) (cfg : PyCfg) : DetectorResult :=
  let baseVars : List (Str × TemplVar) :=
    [("pyVersion".data, .str cfg.pyVersion), ("appName".data, .str cfg.appName),
     (cfg.depStyle, .bool true)]
  let objectStorage := cfg.deps.contains "boto3".data || cfg.deps.contains "boto".data
  match pickApp cfg.deps [] with
  | none => .absent
  | some app =>
    if app = [] then .absent
    else if app = "fastapi".data then
      .found { templateDir := "templates/python-docker".data,
               vars := baseVars ++ [("fastapi".data, .bool true)],
               family := "FastAPI".data, port := 8000,
               objectStorageDesired := objectStorage,
               runtimeLanguage := "python".data }
    else if app = "flask".data then
      .found { templateDir := "templates/python-docker".data,
               vars := baseVars ++ [("flask".data, .bool true)],
               family := "Flask".data, port := 8080,
               objectStorageDesired := objectStorage,
               runtimeLanguage := "python".data }
    else if app = "streamlit".data then
      match findEntrypoint env.tree "streamlit".data with
      | none => .absent
      | some entry =>
        .found { templateDir := "templates/python-docker".data,
                 vars := baseVars ++
                   [("streamlit".data, .bool true), ("entrypoint".data, .str entry)],
                 family := "Streamlit".data, port := 8501,
                 objectStorageDesired := objectStorage,
                 runtimeLanguage := "python".data }
    else .absent

/-- Function `configPoetry` from `scanner/python.go`.  Modelled from the spec:
the `checksPass`/`fileExists` helpers are not part of the shown source;
per the spec the detector applies only when the lock file and the
metadata file both exist.  The `deps["python"].(string)` type assertion
panics unless the `python` key maps to a string. -/
def configPoetry (env : PyEnv) : DetectorResult :=
  if "poetry.lock".data ∈ env.files ∧ "pyproject.toml".data ∈ env.files then
    match env.pyproject with
    | none => .fail "Error parsing pyproject.toml".data
    | some pp =>
      match pp.poetryDependencies with
      | none => .fail "No dependencies found in pyproject.toml".data
      | some deps =>
        let depList := deps.map (fun kv => parsePyDep kv.1)
        match lookupAssoc "python".data deps with
        | some (.str v) =>
          intoSource env ⟨parsePyDep (trimCaret v), pp.poetryName, depList, "poetry".data⟩
        | _ => .panicked
  else .absent

/-- Function `configPyProject` from `scanner/python.go`.  Note the faithful
double canonicalization of each dependency token (lines 255-256). -/
def configPyProject (env : PyEnv) : DetectorResult :=
  if "pyproject.toml".data ∈ env.files then
    match env.pyproject with
    | none => .fail "Error parsing pyproject.toml".data
    | some pp =>
      match pp.projectDependencies with
      | none => .fail "No dependencies found in pyproject.toml".data
      | some deps =>
        let depList := deps.map (fun d => parsePyDep (parsePyDep d))
        if pp.projectRequiresPython = [] then
          match extractPythonVersion env with
          | .error e => .fail e
          | .ok (v, _) =>
            intoSource env ⟨v, pp.projectName, depList, "pep621".data⟩
        else
          intoSource env
            ⟨trimNonDigitDot pp.projectRequiresPython, pp.projectName, depList,
             "pep621".data⟩
  else .absent

/-- Function `configPipfile` from `scanner/python.go`.  Modelled from the spec:
the detector requires both the package-list file and its companion lock
file to exist. -/
def configPipfile (env : PyEnv) : DetectorResult :=
  if "Pipfile".data ∈ env.files ∧ "Pipfile.lock".data ∈ env.files then
    match env.pipfile with
    | none => .fail "Error parsing Pipfile".data
    | some pf =>
      match pf.packages with
      | none => .fail "No packages found in Pipfile".data
      | some pkgs =>
        let depList := pkgs.map (fun kv => parsePyDep kv.1)
        match extractPythonVersion env with
        | .error e => .fail e
        | .ok (v, _) =>
          intoSource env ⟨v, filepathBase env.sourceDir, depList, "pipenv".data⟩
  else .absent

/-- Function `configRequirements` from `scanner/python.go`: shared tail after the
lines of whichever requirements file exists were read.  `deps == nil`
holds exactly when the scanner produced no lines at all. -/
def configRequirementsWith (env : PyEnv) (deps : List Str) : DetectorResult :=
  if deps = [] then .fail "No dependencies found in requirements file".data
  else
    let depList := deps.map parsePyDep
    match extractPythonVersion env with
    | .error e => .fail e
    | .ok (v, _) =>
      intoSource env ⟨v, filepathBase env.sourceDir, depList, "pip".data⟩

/-- Function `configRequirements` from `scanner/python.go`: `requirements.txt`
is tried before `requirements.in`; only one file is ever read. -/
def configRequirements (env : PyEnv) : DetectorResult :=
  if "requirements.txt".data ∈ env.files then
    configRequirementsWith env env.requirementsTxt
  else if "requirements.in".data ∈ env.files then
    configRequirementsWith env env.requirementsIn
  else .absent

/-- Marker files of the generic fallback check in `configurePython`. -/
def markerFiles : List Str :=
  ["requirements.txt".data, "environment.yml".data, "poetry.lock".data,
   "Pipfile".data, "setup.py".data, "setup.cfg".data]

/-- The generic Python fallback descriptor built by `configurePython`. -/
def genericSource (v : Str) : SourceInfo :=
  { templateDir := "templates/python".data, vars := [],
    builder := "paketobuildpacks/builder:base".data,
    family := "Python".data, port := 8080,
    env := [("PORT".data, "8080".data)], skipDeploy := true,
    deployDocs := "We have generated a simple Procfile for you. Modify it to fit your needs and run \"fly deploy\" to deploy your application.".data,
    runtimeLanguage := "python".data, runtimeVersion := v }

/-- Function `configurePython` from `scanner/python.go`: run the four detectors
in priority order, short-circuiting on the first found descriptor, hard
error or panic; when all are absent, fall back to the generic
descriptor if any marker file exists (any-of semantics, modelled from
the spec since `fileExists` is not part of the shown source). -/
def configurePython (env : PyEnv) : DetectorResult :=
  match configPoetry env with
  | .absent =>
    match configPyProject env with
    | .absent =>
      match configPipfile env with
      | .absent =>
        match configRequirements env with
        | .absent =>
          if markerFiles.any (fun m => decide (m ∈ env.files)) then
            match extractPythonVersion env with
            | .error e => .fail e
            | .ok (v, _) => .found (genericSource v)
          else .absent
        | r => r
      | r => r
    | r => r
  | r => r

/-- Family and port of a found descriptor, for stating classification
results compactly. -/
def resultFamily : DetectorResult → Option (Str × Nat)
  | .found s => some (s.family, s.port)
  | _ => none

/-- Number of supported-framework entries of a dependency list,
multiplicity included. -/
def countSup : List Str → Nat
  | [] => 0
  | d :: rest => (if isSupportedApp d then 1 else 0) + countSup rest

/-- Empty detection environment, the base for the concrete test
environments below. -/
def envMin : PyEnv :=
  { files := [], pyproject := none, pipfile := none,
    pipfileLockVersion := none, requirementsTxt := [], requirementsIn := [],
    python3Out := none, pythonOut := none, tree := [], sourceDir := "app".data }

/-- Environment with a `Pipfile.lock` declaring the purely numeric
interpreter version `3.11`. -/
def cEnvC1 : PyEnv :=
  { envMin with
    files := ["Pipfile.lock".data],
    pipfileLockVersion := some "3.11".data }

/-- A Poetry project with a dependency table but no framework and no
PEP 621 `project.dependencies` list. -/
def cEnvC2 : PyEnv :=
  { envMin with
    files := ["poetry.lock".data, "pyproject.toml".data],
    pyproject := some
      { projectName := [], projectDependencies := none,
        projectRequiresPython := [], poetryName := "myapp".data,
        poetryDependencies := some
          [("python".data, PyVal.str "3.11".data),
           ("requests".data, PyVal.str "2.31".data)] } }

/-- A bare requirements.txt project whose dependency matches no
framework; the python3 probe succeeds. -/
def cEnvC2w : PyEnv :=
  { envMin with
    files := ["requirements.txt".data],
    requirementsTxt := ["requests".data],
    python3Out := some "Python 3.11.2\n".data }

/-- Environment whose python3 probe prints no version banner. -/
def cEnvC6w : PyEnv :=
  { envMin with
    python3Out := some "hello".data }

/-- A requirements.txt consisting of one single blank line. -/
def cEnvC7 : PyEnv :=
  { envMin with
    files := ["requirements.txt".data],
    requirementsTxt := [[]],
    python3Out := some "Python 3.11.2\n".data }

/-- A requirements.txt listing the same framework under two tokens that
canonicalize to the same name. -/
def cEnvC8a : PyEnv :=
  { envMin with
    files := ["requirements.txt".data],
    requirementsTxt := ["flask".data, "flask==2.0".data],
    python3Out := some "Python 3.11.2\n".data }

/-- The same project listing the framework only once. -/
def cEnvC8b : PyEnv :=
  { cEnvC8a with
    requirementsTxt := ["flask".data] }

/-- A `pyproject.toml` whose `tool.poetry.dependencies` table lacks a
`python` key. -/
def ppC10 : PyProjectToml :=
  { projectName := [], projectDependencies := none,
    projectRequiresPython := [], poetryName := "myapp".data,
    poetryDependencies := some [("fastapi".data, PyVal.str "0.100".data)] }

/-- A Poetry project carrying `ppC10`. -/
def cEnvC10 : PyEnv :=
  { envMin with
    files := ["poetry.lock".data, "pyproject.toml".data],
    pyproject := some ppC10 }

/-! ### Helper lemmas about the canonicalizer's string operations -/

theorem toLowerChar_idem (c : Char) :
    toLowerChar (toLowerChar c) = toLowerChar c := by
  by_cases h1 : c = 'A'
  · subst h1; decide
  by_cases h2 : c = 'B'
  · subst h2; decide
  by_cases h3 : c = 'C'
  · subst h3; decide
  by_cases h4 : c = 'D'
  · subst h4; decide
  by_cases h5 : c = 'E'
  · subst h5; decide
  by_cases h6 : c = 'F'
  · subst h6; decide
  by_cases h7 : c = 'G'
  · subst h7; decide
  by_cases h8 : c = 'H'
  · subst h8; decide
  by_cases h9 : c = 'I'
  · subst h9; decide
  by_cases h10 : c = 'J'
  · subst h10; decide
  by_cases h11 : c = 'K'
  · subst h11; decide
  by_cases h12 : c = 'L'
  · subst h12; decide
  by_cases h13 : c = 'M'
  · subst h13; decide
  by_cases h14 : c = 'N'
  · subst h14; decide
  by_cases h15 : c = 'O'
  · subst h15; decide
  by_cases h16 : c = 'P'
  · subst h16; decide
  by_cases h17 : c = 'Q'
  · subst h17; decide
  by_cases h18 : c = 'R'
  · subst h18; decide
  by_cases h19 : c = 'S'
  · subst h19; decide
  by_cases h20 : c = 'T'
  · subst h20; decide
  by_cases h21 : c = 'U'
  · subst h21; decide
  by_cases h22 : c = 'V'
  · subst h22; decide
  by_cases h23 : c = 'W'
  · subst h23; decide
  by_cases h24 : c = 'X'
  · subst h24; decide
  by_cases h25 : c = 'Y'
  · subst h25; decide
  by_cases h26 : c = 'Z'
  · subst h26; decide
  have hc : toLowerChar c = c := by
    unfold toLowerChar
    simp only [if_neg h1, if_neg h2, if_neg h3, if_neg h4, if_neg h5, if_neg h6,
      if_neg h7, if_neg h8, if_neg h9, if_neg h10, if_neg h11, if_neg h12,
      if_neg h13, if_neg h14, if_neg h15, if_neg h16, if_neg h17, if_neg h18,
      if_neg h19, if_neg h20, if_neg h21, if_neg h22, if_neg h23, if_neg h24,
      if_neg h25, if_neg h26]
  rw [hc]
  exact hc

theorem cutAt_isPrefixOf (sep s : Str) :
    (cutAt sep s).isPrefixOf s = true := by
  induction s with
  | nil => simp [cutAt, List.isPrefixOf]
  | cons c rest ih =>
    unfold cutAt
    by_cases h : sep.isPrefixOf (c :: rest) = true
    · simp [h, List.isPrefixOf]
    · simp [h, List.isPrefixOf, ih]

theorem isPrefixOf_trans {a b c : Str} (hab : a.isPrefixOf b = true)
    (hbc : b.isPrefixOf c = true) : a.isPrefixOf c = true := by
  induction a generalizing b c with
  | nil => simp [List.isPrefixOf]
  | cons x xs ih =>
    cases b with
    | nil => simp [List.isPrefixOf] at hab
    | cons y ys =>
      cases c with
      | nil => simp [List.isPrefixOf] at hbc
      | cons z zs =>
        simp only [List.isPrefixOf, Bool.and_eq_true, beq_iff_eq] at hab hbc ⊢
        exact ⟨hab.1.trans hbc.1, ih hab.2 hbc.2⟩

theorem containsSub_nil_left (s : Str) : containsSub [] s = true := by
  cases s <;> simp [containsSub, List.isPrefixOf]

theorem containsSub_of_isPrefixOf {sub s : Str}
    (h : sub.isPrefixOf s = true) : containsSub sub s = true := by
  cases s with
  | nil => simpa [containsSub] using h
  | cons c rest => simp [containsSub, h]

theorem containsSub_mono {sub t s : Str} (hts : t.isPrefixOf s = true)
    (h : containsSub sub t = true) : containsSub sub s = true := by
  induction t generalizing s with
  | nil =>
    simp only [containsSub] at h
    have : sub = [] := by
      cases sub with
      | nil => rfl
      | cons x xs => simp [List.isPrefixOf] at h
    subst this
    exact containsSub_nil_left s
  | cons c t' ih =>
    cases s with
    | nil => simp [List.isPrefixOf] at hts
    | cons a s' =>
      simp only [List.isPrefixOf, Bool.and_eq_true, beq_iff_eq] at hts
      obtain ⟨rfl, hts'⟩ := hts
      simp only [containsSub, Bool.or_eq_true] at h ⊢
      rcases h with h | h
      · exact Or.inl (isPrefixOf_trans h (by
          simp [List.isPrefixOf, hts']))
      · exact Or.inr (ih hts' h)

theorem cutAt_not_containsSub {sep : Str} (hsep : sep ≠ []) (s : Str) :
    containsSub sep (cutAt sep s) = false := by
  induction s with
  | nil =>
    cases sep with
    | nil => exact absurd rfl hsep
    | cons x xs => simp [cutAt, containsSub, List.isPrefixOf]
  | cons c rest ih =>
    unfold cutAt
    by_cases h : sep.isPrefixOf (c :: rest) = true
    · simp only [if_pos h]
      cases sep with
      | nil => exact absurd rfl hsep
      | cons x xs => simp [containsSub, List.isPrefixOf]
    · simp only [if_neg h]
      simp only [containsSub, Bool.or_eq_false_iff]
      refine ⟨?_, ih⟩
      cases hx : sep.isPrefixOf (c :: cutAt sep rest) with
      | false => rfl
      | true =>
        exact absurd
          (isPrefixOf_trans hx (by simp [List.isPrefixOf, cutAt_isPrefixOf])) h

theorem cutAt_eq_of_not_containsSub {sep s : Str}
    (h : containsSub sep s = false) : cutAt sep s = s := by
  induction s with
  | nil => simp [cutAt]
  | cons c rest ih =>
    simp only [containsSub, Bool.or_eq_false_iff] at h
    unfold cutAt
    simp only [if_neg (by simp [h.1] : ¬ sep.isPrefixOf (c :: rest) = true)]
    rw [ih h.2]

theorem containsSub_cutAt_false {sub s : Str} (sep : Str)
    (h : containsSub sub s = false) :
    containsSub sub (cutAt sep s) = false := by
  by_contra hc
  have : containsSub sub (cutAt sep s) = true := by
    cases hx : containsSub sub (cutAt sep s) with
    | true => rfl
    | false => exact absurd hx hc
  exact absurd (containsSub_mono (cutAt_isPrefixOf sep s) this) (by simp [h])

theorem map_toLowerChar_of_isPrefixOf {t s : Str}
    (h : t.isPrefixOf (s.map toLowerChar) = true) :
    t.map toLowerChar = t := by
  induction t generalizing s with
  | nil => rfl
  | cons c t' ih =>
    cases s with
    | nil => simp [List.isPrefixOf] at h
    | cons a s' =>
      simp only [List.map, List.isPrefixOf, Bool.and_eq_true, beq_iff_eq] at h
      obtain ⟨rfl, h'⟩ := h
      simp only [List.map, toLowerChar_idem, List.cons.injEq, true_and]
      exact ih h'

theorem parsePyDep_no_semicolon (d : Str) :
    containsSub [';'] (parsePyDep d) = false :=
  containsSub_cutAt_false _ (containsSub_cutAt_false _ (containsSub_cutAt_false _
    (containsSub_cutAt_false _ (containsSub_cutAt_false _ (containsSub_cutAt_false _
      (cutAt_not_containsSub (by simp) _))))))

theorem parsePyDep_no_space (d : Str) :
    containsSub [' '] (parsePyDep d) = false :=
  containsSub_cutAt_false _ (containsSub_cutAt_false _ (containsSub_cutAt_false _
    (containsSub_cutAt_false _ (containsSub_cutAt_false _
      (cutAt_not_containsSub (by simp) _)))))

theorem parsePyDep_no_bracket (d : Str) :
    containsSub ['['] (parsePyDep d) = false :=
  containsSub_cutAt_false _ (containsSub_cutAt_false _ (containsSub_cutAt_false _
    (containsSub_cutAt_false _ (cutAt_not_containsSub (by simp) _))))

theorem parsePyDep_no_eqeq (d : Str) :
    containsSub ['=', '='] (parsePyDep d) = false :=
  containsSub_cutAt_false _ (containsSub_cutAt_false _ (containsSub_cutAt_false _
    (cutAt_not_containsSub (by simp) _)))

theorem parsePyDep_no_gt (d : Str) :
    containsSub ['>'] (parsePyDep d) = false :=
  containsSub_cutAt_false _ (containsSub_cutAt_false _
    (cutAt_not_containsSub (by simp) _))

theorem parsePyDep_no_lt (d : Str) :
    containsSub ['<'] (parsePyDep d) = false :=
  containsSub_cutAt_false _ (cutAt_not_containsSub (by simp) _)

theorem parsePyDep_no_tildeeq (d : Str) :
    containsSub ['~', '='] (parsePyDep d) = false :=
  cutAt_not_containsSub (by simp) _

theorem parsePyDep_isPrefixOf_toLower (d : Str) :
    (parsePyDep d).isPrefixOf (toLowerStr d) = true :=
  isPrefixOf_trans (cutAt_isPrefixOf _ _)
    (isPrefixOf_trans (cutAt_isPrefixOf _ _)
      (isPrefixOf_trans (cutAt_isPrefixOf _ _)
        (isPrefixOf_trans (cutAt_isPrefixOf _ _)
          (isPrefixOf_trans (cutAt_isPrefixOf _ _)
            (isPrefixOf_trans (cutAt_isPrefixOf _ _)
              (cutAt_isPrefixOf _ _))))))

theorem toLowerStr_parsePyDep (d : Str) :
    toLowerStr (parsePyDep d) = parsePyDep d :=
  map_toLowerChar_of_isPrefixOf (parsePyDep_isPrefixOf_toLower d)

/-- Claim C4: the Dependency Token Canonicalizer is idempotent — for
every input token, `parsePyDep (parsePyDep x) = parsePyDep x`. -/
theorem parsePyDep_idem (d : Str) :
    parsePyDep (parsePyDep d) = parsePyDep d := by
  show cutAt ['~', '='] (cutAt ['<'] (cutAt ['>'] (cutAt ['=', '=']
      (cutAt ['['] (cutAt [' '] (cutAt [';'] (toLowerStr (parsePyDep d))))))))
    = parsePyDep d
  rw [toLowerStr_parsePyDep,
    cutAt_eq_of_not_containsSub (parsePyDep_no_semicolon d),
    cutAt_eq_of_not_containsSub (parsePyDep_no_space d),
    cutAt_eq_of_not_containsSub (parsePyDep_no_bracket d),
    cutAt_eq_of_not_containsSub (parsePyDep_no_eqeq d),
    cutAt_eq_of_not_containsSub (parsePyDep_no_gt d),
    cutAt_eq_of_not_containsSub (parsePyDep_no_lt d),
    cutAt_eq_of_not_containsSub (parsePyDep_no_tildeeq d)]

/-- Claim C5 (counterexample): on the token `a=b` the canonicalizer
keeps the lone `=` followed by further content `b`, so the output is
not free of every character from the claim's delimiter set. -/
theorem canonical_residue_cex :
    parsePyDep "a=b".data = "a=b".data ∧
    containsSub ['=', 'b'] (parsePyDep "a=b".data) = true := by
  constructor
  · decide
  · decide

/-- Claim C5 (amended): the canonicalizer's output contains no `;`,
no space, no `[`, no `>`, no `<`, and no two-character sequence `==`
or `~=`; a lone `=` or `~` that is not part of `==` or `~=` may
remain. -/
theorem canonical_no_delimiters (d : Str) :
    containsSub [';'] (parsePyDep d) = false ∧
    containsSub [' '] (parsePyDep d) = false ∧
    containsSub ['['] (parsePyDep d) = false ∧
    containsSub ['>'] (parsePyDep d) = false ∧
    containsSub ['<'] (parsePyDep d) = false ∧
    containsSub ['=', '='] (parsePyDep d) = false ∧
    containsSub ['~', '='] (parsePyDep d) = false :=
  ⟨parsePyDep_no_semicolon d, parsePyDep_no_space d, parsePyDep_no_bracket d,
   parsePyDep_no_gt d, parsePyDep_no_lt d, parsePyDep_no_eqeq d,
   parsePyDep_no_tildeeq d⟩

/-! ### Helper lemmas about classification and the entrypoint walk -/

theorem isSupportedApp_ne_nil {d : Str} (h : isSupportedApp d = true) :
    d ≠ [] := by
  unfold isSupportedApp at h
  simp only [Bool.or_eq_true, decide_eq_true_eq] at h
  rcases h with (h | h) | h <;> subst h <;> simp

theorem countSup_pos_of_mem {b : Str} {l : List Str}
    (hb : b ∈ l) (hpb : isSupportedApp b = true) : 1 ≤ countSup l := by
  induction l with
  | nil => simp at hb
  | cons x xs ih =>
    rcases List.mem_cons.mp hb with rfl | hb'
    · simp [countSup, hpb]
    · have := ih hb'
      simp only [countSup]
      omega

theorem countSup_two_of_mem {a b : Str} {l : List Str}
    (ha : a ∈ l) (hb : b ∈ l) (hab : a ≠ b) (hpa : isSupportedApp a = true)
    (hpb : isSupportedApp b = true) : 2 ≤ countSup l := by
  induction l with
  | nil => simp at ha
  | cons x xs ih =>
    rcases List.mem_cons.mp ha with rfl | ha'
    · have hb' : b ∈ xs := by
        rcases List.mem_cons.mp hb with rfl | hb'
        · exact absurd rfl hab
        · exact hb'
      have := countSup_pos_of_mem hb' hpb
      simp [countSup, hpa]
      omega
    · rcases List.mem_cons.mp hb with rfl | hb'
      · have := countSup_pos_of_mem ha' hpa
        simp [countSup, hpb]
        omega
      · have := ih ha' hb'
        simp only [countSup]
        omega

theorem pickApp_of_countSup_zero {l : List Str} (a : Str)
    (h : countSup l = 0) : pickApp l a = some a := by
  induction l generalizing a with
  | nil => rfl
  | cons d rest ih =>
    simp only [countSup] at h
    have hd : isSupportedApp d = false := by
      cases hx : isSupportedApp d with
      | false => rfl
      | true => rw [hx] at h; simp at h
    rw [hd] at h
    simp only [if_neg (by simp : ¬ (false : Bool) = true)] at h
    unfold pickApp
    simp [hd, ih a (by omega)]

theorem pickApp_none_of_acc {l : List Str} {a : Str} (ha : a ≠ [])
    (h : 1 ≤ countSup l) : pickApp l a = none := by
  induction l with
  | nil => simp [countSup] at h
  | cons d rest ih =>
    unfold pickApp
    cases hd : isSupportedApp d with
    | true => simp [hd, ha]
    | false =>
      have hr : 1 ≤ countSup rest := by
        simp [countSup, hd] at h
        omega
      simp [hd, ih hr]

theorem pickApp_none_of_two {l : List Str}
    (h : 2 ≤ countSup l) : pickApp l [] = none := by
  induction l with
  | nil => simp [countSup] at h
  | cons d rest ih =>
    unfold pickApp
    cases hd : isSupportedApp d with
    | true =>
      have hr : 1 ≤ countSup rest := by
        simp [countSup, hd] at h
        omega
      simp [hd, pickApp_none_of_acc (isSupportedApp_ne_nil hd) hr]
    | false =>
      have hr : 2 ≤ countSup rest := by
        simp [countSup, hd] at h
        omega
      simp [hd, ih hr]

theorem intoSource_absent_of_two {env : PyEnv} {cfg : PyCfg}
    (h : 2 ≤ countSup cfg.deps) : intoSource env cfg = .absent := by
  unfold intoSource
  rw [pickApp_none_of_two h]

theorem intoSource_absent_of_zero {env : PyEnv} {cfg : PyCfg}
    (h : countSup cfg.deps = 0) : intoSource env cfg = .absent := by
  unfold intoSource
  rw [pickApp_of_countSup_zero [] h]
  simp

theorem foldl_entrypointStep_const {dep : Str} {t : List (Str × List Str)}
    (h : ∀ y ∈ t, fileQualifies dep y = false) (acc : Option Str) :
    t.foldl (entrypointStep dep) acc = acc := by
  induction t generalizing acc with
  | nil => rfl
  | cons pf rest ih =>
    have hpf : fileQualifies dep pf = false := h pf (by simp)
    simp only [List.foldl_cons, entrypointStep, hpf]
    exact ih (fun y hy => h y (by simp [hy])) acc

theorem findEntrypoint_eq_none {dep : Str} {t : List (Str × List Str)}
    (h : ∀ y ∈ t, fileQualifies dep y = false) :
    findEntrypoint t dep = none :=
  foldl_entrypointStep_const h none

theorem foldl_entrypointStep_last {dep : Str} {x : Str × List Str}
    {t2 : List (Str × List Str)} (t1 : List (Str × List Str))
    (hx : fileQualifies dep x = true)
    (h2 : ∀ y ∈ t2, fileQualifies dep y = false) (acc : Option Str) :
    (t1 ++ x :: t2).foldl (entrypointStep dep) acc = some x.1 := by
  induction t1 generalizing acc with
  | nil =>
    simp only [List.nil_append, List.foldl_cons, entrypointStep, hx, if_pos]
    exact foldl_entrypointStep_const h2 _
  | cons h1 rest ih =>
    simp only [List.cons_append, List.foldl_cons]
    exact ih _

theorem findEntrypoint_last {dep : Str} {x : Str × List Str}
    {t2 : List (Str × List Str)} (t1 : List (Str × List Str))
    (hx : fileQualifies dep x = true)
    (h2 : ∀ y ∈ t2, fileQualifies dep y = false) :
    findEntrypoint (t1 ++ x :: t2) dep = some x.1 :=
  foldl_entrypointStep_last t1 hx h2 none

theorem intoSource_ne_panicked (env : PyEnv) (cfg : PyCfg) :
    intoSource env cfg ≠ .panicked := by
  unfold intoSource
  cases pickApp cfg.deps [] with
  | none => simp
  | some app =>
    simp only []
    split
    · simp
    · split
      · simp
      · split
        · simp
        · split
          · cases findEntrypoint env.tree "streamlit".data <;> simp
          · simp

/-! ### Helper lemmas about the version resolver and the detectors -/

theorem matchVersionAt_isSome (s : Str) :
    (matchVersionAt s).isSome = hasVersionAt s := by
  unfold matchVersionAt hasVersionAt
  cases matchMandatory s <;> rfl

theorem findVersionMatch_eq_none {t : Str} (h : hasBannerVersion t = false) :
    findVersionMatch t = none := by
  induction t with
  | nil => rfl
  | cons c rest ih =>
    simp only [hasBannerVersion, Bool.or_eq_false_iff] at h
    have hnone : matchVersionAt (c :: rest) = none := by
      have hs := matchVersionAt_isSome (c :: rest)
      rw [h.1] at hs
      cases hm : matchVersionAt (c :: rest) with
      | none => rfl
      | some v => rw [hm] at hs; simp at hs
    unfold findVersionMatch
    rw [hnone]
    exact ih h.2

theorem configPoetry_applies {env : PyEnv} {pp : PyProjectToml}
    {deps : List (Str × PyVal)}
    (h1 : "poetry.lock".data ∈ env.files)
    (h2 : "pyproject.toml".data ∈ env.files)
    (h3 : env.pyproject = some pp)
    (h4 : pp.poetryDependencies = some deps) :
    configPoetry env =
      match lookupAssoc "python".data deps with
      | some (.str v) =>
        intoSource env
          ⟨parsePyDep (trimCaret v), pp.poetryName,
           deps.map (fun kv => parsePyDep kv.1), "poetry".data⟩
      | _ => .panicked := by
  unfold configPoetry
  rw [if_pos ⟨h1, h2⟩, h3]
  show (match pp.poetryDependencies with
    | none => DetectorResult.fail "No dependencies found in pyproject.toml".data
    | some deps =>
      match lookupAssoc "python".data deps with
      | some (.str v) =>
        intoSource env
          ⟨parsePyDep (trimCaret v), pp.poetryName,
           deps.map (fun kv : Str × PyVal => parsePyDep kv.1), "poetry".data⟩
      | _ => .panicked) = _
  rw [h4]

/-! ### Claim theorems -/

/-- Claim C1 (counterexample): a `Pipfile.lock` declaring the purely
numeric interpreter version `3.11` — which the `[^0-9.]` pinned test
itself calls unpinned — is returned by `extractPythonVersion` with the
pinned flag `true`, not `false`. -/
theorem lockfile_pinned_cex :
    extractPythonVersion cEnvC1 = .ok ("3.11".data, true) ∧
    pinnedOf "3.11".data = false := by
  constructor
  · decide
  · decide

/-- Claim C1 (amended): whenever the lockfile's
`_meta.requires.python_version` is a non-empty string, the Runtime
Version Resolver returns that string as the version, and the returned
pinned flag is always `true`, whether or not the string is purely
numeric. -/
theorem lockfile_version_always_pinned (env : PyEnv) (v : Str)
    (h : env.pipfileLockVersion = some v) (hv : v ≠ []) :
    extractPythonVersion env = .ok (v, true) := by
  unfold extractPythonVersion
  rw [h]
  simp [hv]

theorem lockfile_version_always_pinned_wit :
    extractPythonVersion cEnvC1 = .ok ("3.11".data, true) :=
  lockfile_version_always_pinned cEnvC1 "3.11".data rfl (by decide)

/-- Claim C2 (counterexample): on a Poetry project whose dependency
table matches no supported framework, the Poetry detector itself is
absent (non-fatal), but the orchestrator then runs the PEP 621 detector
on the same `pyproject.toml`, which hard-errors on the missing
`project.dependencies` list — so the overall resolution surfaces a hard
error instead of falling back to the generic descriptor. -/
theorem fallback_nonfatal_cex :
    configPoetry cEnvC2 = .absent ∧
    configurePython cEnvC2 =
      .fail "No dependencies found in pyproject.toml".data := by
  constructor
  · decide
  · decide

/-- Claim C2 (amended): a positively-applying detector whose canonical
dependency list matches zero supported frameworks is itself non-fatal
(absent), and the orchestrator moves on to the remaining detectors —
which may themselves hard-error.  When the zero-match detector is the
last one (the flat-requirements detector) and version resolution
succeeds, the orchestrator does fall back to the generic Python
descriptor with port 8080. -/
theorem fallback_generic_descriptor (env : PyEnv) (v : Str) (p : Bool)
    (h1 : "pyproject.toml".data ∉ env.files)
    (h2 : ¬("Pipfile".data ∈ env.files ∧ "Pipfile.lock".data ∈ env.files))
    (h3 : "requirements.txt".data ∈ env.files)
    (h4 : env.requirementsTxt ≠ [])
    (h5 : countSup (env.requirementsTxt.map parsePyDep) = 0)
    (h6 : extractPythonVersion env = .ok (v, p)) :
    configurePython env = .found (genericSource v) := by
  have hpo : configPoetry env = .absent := by
    unfold configPoetry
    rw [if_neg (by tauto)]
  have hpp : configPyProject env = .absent := by
    unfold configPyProject
    rw [if_neg h1]
  have hpi : configPipfile env = .absent := by
    unfold configPipfile
    rw [if_neg h2]
  have hrq : configRequirements env = .absent := by
    unfold configRequirements
    rw [if_pos h3]
    unfold configRequirementsWith
    rw [if_neg h4, h6]
    exact intoSource_absent_of_zero h5
  have hm : markerFiles.any (fun m => decide (m ∈ env.files)) = true := by
    simp [markerFiles, h3]
  unfold configurePython
  rw [hpo, hpp, hpi, hrq, if_pos hm, h6]

theorem fallback_generic_descriptor_wit :
    configurePython cEnvC2w = .found (genericSource "3.11.2".data) :=
  fallback_generic_descriptor cEnvC2w "3.11.2".data false (by decide)
    (by decide) (by decide) (by decide) (by decide) (by decide)

/-- Claim C3: a dependency list of exactly `fastapi` classifies as
family `FastAPI` with port 8000, exactly `flask` as family `Flask` with
port 8080, and any list containing both `fastapi` and `flask` yields no
descriptor and no error (absent). -/
theorem framework_classification (env : PyEnv) (v a st : Str) :
    resultFamily (intoSource env ⟨v, a, ["fastapi".data], st⟩) =
      some ("FastAPI".data, 8000) ∧
    resultFamily (intoSource env ⟨v, a, ["flask".data], st⟩) =
      some ("Flask".data, 8080) ∧
    ∀ cfg : PyCfg, "fastapi".data ∈ cfg.deps → "flask".data ∈ cfg.deps →
      intoSource env cfg = .absent := by
  refine ⟨rfl, rfl, ?_⟩
  intro cfg hfa hfl
  exact intoSource_absent_of_two
    (countSup_two_of_mem hfa hfl (by decide) (by decide) (by decide))

theorem framework_classification_wit :
    intoSource envMin ⟨[], [], ["fastapi".data, "flask".data], []⟩ =
      .absent :=
  (framework_classification envMin [] [] []).2.2
    ⟨[], [], ["fastapi".data, "flask".data], []⟩ (by decide) (by decide)

/-- Claim C6: the banner text `Python 3.11.2\n` parses to version
`3.11.2` with pinned = false, `Python 3.12.0b4` to `3.12.0b4` with
pinned = true, and a probe output with no `Python MAJOR.MINOR.PATCH`
substring makes `extractPythonVersion` return the hard error. -/
theorem version_banner_parsing :
    parseVersionBanner "Python 3.11.2\n".data = .ok ("3.11.2".data, false) ∧
    parseVersionBanner "Python 3.12.0b4".data = .ok ("3.12.0b4".data, true) ∧
    ∀ (env : PyEnv) (t : Str), env.pipfileLockVersion = none →
      env.python3Out = some t → hasBannerVersion t = false →
      extractPythonVersion env =
        .error "Could not find Python version".data := by
  refine ⟨by decide, by decide, ?_⟩
  intro env t h1 h2 h3
  unfold extractPythonVersion
  rw [h1]
  unfold bannerOutput
  rw [h2]
  unfold parseVersionBanner
  rw [findVersionMatch_eq_none h3]

theorem version_banner_parsing_wit :
    extractPythonVersion cEnvC6w =
      .error "Could not find Python version".data :=
  version_banner_parsing.2.2 cEnvC6w "hello".data rfl rfl (by decide)

/-- Claim C7 (counterexample): a requirements.txt consisting of one
blank line yields one empty token rather than zero tokens, so the
detector does not return the `no dependencies found` hard error — it
proceeds and ends up absent. -/
theorem requirements_blank_line_cex :
    cEnvC7.requirementsTxt = [[]] ∧
    configRequirements cEnvC7 = .absent := by
  constructor
  · rfl
  · decide

/-- Claim C7 (amended): every scanner line of the requirements file —
blank lines included — is treated as one raw dependency token and
canonicalized individually; the hard error `no dependencies found`
occurs exactly when the file exists but contains no lines at all. -/
theorem requirements_lines_tokens (env : PyEnv)
    (hf : "requirements.txt".data ∈ env.files) :
    (env.requirementsTxt = [] →
      configRequirements env =
        .fail "No dependencies found in requirements file".data) ∧
    (∀ (v : Str) (p : Bool), env.requirementsTxt ≠ [] →
      extractPythonVersion env = .ok (v, p) →
      configRequirements env =
        intoSource env
          ⟨v, filepathBase env.sourceDir,
           env.requirementsTxt.map parsePyDep, "pip".data⟩) := by
  constructor
  · intro he
    unfold configRequirements
    rw [if_pos hf]
    unfold configRequirementsWith
    rw [if_pos he]
  · intro v p hne hex
    unfold configRequirements
    rw [if_pos hf]
    unfold configRequirementsWith
    rw [if_neg hne, hex]

theorem requirements_lines_tokens_wit :
    configRequirements cEnvC7 =
      intoSource cEnvC7
        ⟨"3.11.2".data, filepathBase cEnvC7.sourceDir,
         cEnvC7.requirementsTxt.map parsePyDep, "pip".data⟩ :=
  (requirements_lines_tokens cEnvC7 (by decide)).2 "3.11.2".data false
    (by decide) (by decide)

/-- Claim C8 (counterexample): a requirements.txt listing `flask` and
`flask==2.0` — two tokens with the same canonical name — is classified
as an ambiguous conflict (absent), while listing `flask` once yields
the Flask descriptor; duplicates are therefore not collapsed as a set.
-/
theorem duplicate_framework_cex :
    configRequirements cEnvC8a = .absent ∧
    resultFamily (configRequirements cEnvC8b) =
      some ("Flask".data, 8080) := by
  constructor
  · decide
  · decide

/-- Claim C8 (amended): the canonical dependency collection is a list
that may repeat names; any dependency list carrying two or more
supported-framework entries — including the same framework listed
twice — is classified as an ambiguous conflict (absent with a
warning), not as a single match. -/
theorem duplicate_supported_conflict (env : PyEnv) (cfg : PyCfg)
    (h : 2 ≤ countSup cfg.deps) : intoSource env cfg = .absent :=
  intoSource_absent_of_two h

theorem duplicate_supported_conflict_wit :
    intoSource envMin
      ⟨"3.11".data, "a".data, ["flask".data, "flask".data], "pip".data⟩ =
      .absent :=
  duplicate_supported_conflict envMin
    ⟨"3.11".data, "a".data, ["flask".data, "flask".data], "pip".data⟩
    (by decide)

/-- Claim C9: the entrypoint locator returns the qualifying file
visited last in walk order — for a tree holding two qualifying files it
returns the later one, not the first; with no qualifying file it
returns nothing, and the Streamlit descriptor build then aborts with no
error (absent). -/
theorem entrypoint_last_match :
    (∀ (dep : Str) (t1 t2 t3 : List (Str × List Str))
       (x y : Str × List Str),
       fileQualifies dep x = true → fileQualifies dep y = true →
       (∀ z ∈ t3, fileQualifies dep z = false) →
       findEntrypoint (t1 ++ x :: t2 ++ y :: t3) dep = some y.1) ∧
    (∀ (dep : Str) (t : List (Str × List Str)),
       (∀ z ∈ t, fileQualifies dep z = false) →
       findEntrypoint t dep = none) ∧
    (∀ (env : PyEnv) (cfg : PyCfg),
       pickApp cfg.deps [] = some "streamlit".data →
       (∀ z ∈ env.tree, fileQualifies "streamlit".data z = false) →
       intoSource env cfg = .absent) := by
  refine ⟨?_, ?_, ?_⟩
  · intro dep t1 t2 t3 x y hx hy h3
    have hsplit : t1 ++ x :: t2 ++ y :: t3 = (t1 ++ x :: t2) ++ y :: t3 := by
      simp
    rw [hsplit]
    exact findEntrypoint_last (t1 ++ x :: t2) hy h3
  · intro dep t h
    exact findEntrypoint_eq_none h
  · intro env cfg hpick htree
    unfold intoSource
    rw [hpick, findEntrypoint_eq_none htree]
    rfl

theorem entrypoint_last_match_wit :
    findEntrypoint
      [("a.py".data, ["import streamlit".data]),
       ("b.py".data, ["import streamlit".data])] "streamlit".data =
      some "b.py".data :=
  entrypoint_last_match.1 "streamlit".data [] [] []
    ("a.py".data, ["import streamlit".data])
    ("b.py".data, ["import streamlit".data])
    (by decide) (by decide) (by intro z hz; simp at hz)

/-- Claim C10: when the Poetry detector applies and its dependency
table is present but the `python` key is missing or maps to a
non-string value, the unchecked type assertion panics — the detector
only returns normally (absent, found or fail) when `python` maps to a
string. -/
theorem poetry_python_assertion (env : PyEnv) (pp : PyProjectToml)
    (deps : List (Str × PyVal))
    (h1 : "poetry.lock".data ∈ env.files)
    (h2 : "pyproject.toml".data ∈ env.files)
    (h3 : env.pyproject = some pp)
    (h4 : pp.poetryDependencies = some deps) :
    ((lookupAssoc "python".data deps = none ∨
      lookupAssoc "python".data deps = some .other) →
      configPoetry env = .panicked) ∧
    (∀ v : Str, lookupAssoc "python".data deps = some (.str v) →
      configPoetry env ≠ .panicked) := by
  have hbody := configPoetry_applies h1 h2 h3 h4
  constructor
  · intro hl
    rw [hbody]
    rcases hl with hl | hl <;> rw [hl]
  · intro v hl
    rw [hbody, hl]
    exact intoSource_ne_panicked env _

theorem poetry_python_assertion_wit :
    configPoetry cEnvC10 = .panicked :=
  (poetry_python_assertion cEnvC10 ppC10
      [("fastapi".data, PyVal.str "0.100".data)]
      (by decide) (by decide) rfl rfl).1 (Or.inl (by decide))
